import Mathlib

/-!
# Verification of the MPIC coordinator's CAA checker and orchestration model

Shallow embedding of the CAA issuance-decision code
(`src/aws_lambda_python/mpic_caa_checker/mpic_caa_checker.py`), the
orchestration-parameter models, and the DCV checker lambda handler,
together with theorems settling the specified properties.

DNS resolution, JSON serialization and wall-clock timestamps are external
effects; they enter the embedding as explicit function parameters
(`resolve`, `model_dump_json`, `timestamp_ns`).
-/

namespace Mpic

/-! ## CAA records, RRsets and DNS names

A CAA resource record carries a flags byte, a tag and a value
(dnspython exposes `flags`, `tag`, `value`; the checker decodes tag and
value to strings).  An RRset is the list of its records plus its textual
form (`rrset.to_text()`).  A DNS name is its label list, the root being
the empty list; `parent()` drops the leftmost label. -/

structure CaaRecord where
  flags : Nat
  tag : String
  value : String
deriving Repr, DecidableEq

structure RRset where
  records : List CaaRecord
  text : String
deriving Repr, DecidableEq

/-- Result of one `dns.resolver.resolve(domain, CAA)` call: an answer RRset,
a `NoAnswer` exception, or any other DNS exception (timeout, SERVFAIL,
NXDOMAIN, ...) carried as its message. -/
inductive DnsLookupResult where
  | found (rrset : RRset)
  | noAnswer
  | failure (err : String)
deriving Repr, DecidableEq

/-- `domain.to_text(omit_final_dot=True)` on a label list. -/
def domainToText (labels : List String) : String :=
  String.intercalate "." labels

def ISSUE_TAG : String := "issue"
def ISSUEWILD_TAG : String := "issuewild"

/-! ## `MpicCaaChecker.does_value_list_permit_issuance`

For each value: a value containing `";"` is skipped (no CAA-extension
parsing), otherwise the whitespace-stripped value is compared for exact
membership in `caa_domains`; the first match returns `True`, exhaustion
returns `False`.  Python's `";" in value` on the one-character needle is
character containment, and `value.strip()` removes whitespace from both
ends; both are rendered over the character list. -/

def containsChar (s : String) (c : Char) : Bool :=
  s.data.contains c

def pyStrip (s : String) : String :=
  String.mk (((s.data.dropWhile Char.isWhitespace).reverse.dropWhile
    Char.isWhitespace).reverse)

def does_value_list_permit_issuance (value_list : List String) (caa_domains : List String) : Bool :=
  value_list.any (fun value =>
    !(containsChar value ';') && caa_domains.contains (pyStrip value))

/-! ## `MpicCaaChecker.is_valid_for_issuance`

One pass over the RRset sorts values of `issue` records into `issue_tags`,
values of `issuewild` records into `issue_wild_tags`, and records any other
tag whose flags byte has the high (critical) bit set.  The single-pass
accumulation is rendered as filters over the record list (order-preserving,
as the loop's appends are). -/

def issueTagValues (rrset : List CaaRecord) : List String :=
  (rrset.filter (fun r => r.tag == ISSUE_TAG)).map (fun r => r.value)

def issueWildTagValues (rrset : List CaaRecord) : List String :=
  (rrset.filter (fun r => r.tag == ISSUEWILD_TAG)).map (fun r => r.value)

def hasUnknownCriticalFlags (rrset : List CaaRecord) : Bool :=
  rrset.any (fun r =>
    r.tag != ISSUE_TAG && r.tag != ISSUEWILD_TAG && r.flags &&& 128 != 0)

def is_valid_for_issuance (caa_domains : List String) (is_wc_domain : Bool)
    (rrset : List CaaRecord) : Bool :=
  if hasUnknownCriticalFlags rrset then
    false
  else if is_wc_domain && (issueWildTagValues rrset).length > 0 then
    does_value_list_permit_issuance (issueWildTagValues rrset) caa_domains
  else if (issueTagValues rrset).length > 0 then
    does_value_list_permit_issuance (issueTagValues rrset) caa_domains
  else
    true

end Mpic

namespace Mpic

/-- Characterization of `does_value_list_permit_issuance`: some value free of
`;` matches a CAA domain after stripping. -/
theorem permit_issuance_iff (value_list caa_domains : List String) :
    does_value_list_permit_issuance value_list caa_domains = true ↔
      ∃ v ∈ value_list, containsChar v ';' = false ∧ pyStrip v ∈ caa_domains := by
  unfold does_value_list_permit_issuance
  rw [List.any_eq_true]
  constructor
  · rintro ⟨v, hv, hp⟩
    refine ⟨v, hv, ?_, ?_⟩
    · cases hcon : containsChar v ';' <;> simp [hcon] at hp ⊢
    · have := (Bool.and_eq_true _ _).mp hp
      simpa using this.2
  · rintro ⟨v, hv, hcon, hmem⟩
    refine ⟨v, hv, ?_⟩
    simp [hcon, hmem]

end Mpic

/-- **C5.** A CAA value containing `;` never permits issuance, and a value
without `;` permits issuance exactly when its whitespace-stripped form
equals one of the effective CAA domains; with no matching value issuance
is not permitted. -/
theorem C5_value_list_permit_issuance_iff (value_list caa_domains : List String) :
    Mpic.does_value_list_permit_issuance value_list caa_domains = true ↔
      ∃ v ∈ value_list, Mpic.containsChar v ';' = false ∧ Mpic.pyStrip v ∈ caa_domains :=
  Mpic.permit_issuance_iff value_list caa_domains

/-- **C1.** If any record of the RRset has a tag other than `issue` and
`issuewild` and the critical flag (high bit of the flags byte) set, the
issuance decision is negative, regardless of the other records. -/
theorem C1_unknown_critical_forces_denial (caa_domains : List String)
    (is_wc_domain : Bool) (rrset : List Mpic.CaaRecord)
    (h : ∃ r ∈ rrset, r.tag ≠ Mpic.ISSUE_TAG ∧ r.tag ≠ Mpic.ISSUEWILD_TAG ∧
      r.flags &&& 128 ≠ 0) :
    Mpic.is_valid_for_issuance caa_domains is_wc_domain rrset = false := by
  have hcrit : Mpic.hasUnknownCriticalFlags rrset = true := by
    unfold Mpic.hasUnknownCriticalFlags
    rw [List.any_eq_true]
    obtain ⟨r, hr, h1, h2, h3⟩ := h
    exact ⟨r, hr, by simp [h1, h2, h3]⟩
  unfold Mpic.is_valid_for_issuance
  simp [hcrit]

/-- Witness for C1: a record with tag `tbs` and flags 128 denies issuance
even beside a matching `issue` record. -/
theorem C1_witness :
    (∃ r ∈ [Mpic.CaaRecord.mk 0 "issue" "ca1.com", Mpic.CaaRecord.mk 128 "tbs" "x"],
        r.tag ≠ Mpic.ISSUE_TAG ∧ r.tag ≠ Mpic.ISSUEWILD_TAG ∧ r.flags &&& 128 ≠ 0) ∧
      Mpic.is_valid_for_issuance ["ca1.com"] false
        [Mpic.CaaRecord.mk 0 "issue" "ca1.com", Mpic.CaaRecord.mk 128 "tbs" "x"] = false := by
  refine ⟨?_, C1_unknown_critical_forces_denial _ _ _ ?_⟩ <;>
    exact ⟨Mpic.CaaRecord.mk 128 "tbs" "x", by simp [Mpic.ISSUE_TAG, Mpic.ISSUEWILD_TAG]⟩

/-- **C2.** With no critically-flagged unknown tag in the RRset: for a
wildcard request with at least one `issuewild` record, issuance is permitted
iff some `issuewild` value (stripped, `;`-free) equals an effective CAA
domain, ignoring `issue` records; otherwise with at least one `issue` record,
iff some `issue` value matches; otherwise issuance is permitted. -/
theorem C2_issuance_decision (caa_domains : List String) (is_wc : Bool)
    (rrset : List Mpic.CaaRecord)
    (h : Mpic.hasUnknownCriticalFlags rrset = false) :
    (is_wc = true → Mpic.issueWildTagValues rrset ≠ [] →
      (Mpic.is_valid_for_issuance caa_domains is_wc rrset = true ↔
        ∃ v ∈ Mpic.issueWildTagValues rrset,
          Mpic.containsChar v ';' = false ∧ Mpic.pyStrip v ∈ caa_domains)) ∧
    ((is_wc = false ∨ Mpic.issueWildTagValues rrset = []) →
      Mpic.issueTagValues rrset ≠ [] →
      (Mpic.is_valid_for_issuance caa_domains is_wc rrset = true ↔
        ∃ v ∈ Mpic.issueTagValues rrset,
          Mpic.containsChar v ';' = false ∧ Mpic.pyStrip v ∈ caa_domains)) ∧
    ((is_wc = false ∨ Mpic.issueWildTagValues rrset = []) →
      Mpic.issueTagValues rrset = [] →
      Mpic.is_valid_for_issuance caa_domains is_wc rrset = true) := by
  refine ⟨?_, ?_, ?_⟩
  · intro hw hne
    have hlen : 0 < (Mpic.issueWildTagValues rrset).length := List.length_pos.mpr hne
    rw [show Mpic.is_valid_for_issuance caa_domains is_wc rrset =
        Mpic.does_value_list_permit_issuance (Mpic.issueWildTagValues rrset) caa_domains by
      unfold Mpic.is_valid_for_issuance
      simp [h, hw, hlen]]
    exact Mpic.permit_issuance_iff _ _
  · intro hcond hne
    have hlen : 0 < (Mpic.issueTagValues rrset).length := List.length_pos.mpr hne
    rw [show Mpic.is_valid_for_issuance caa_domains is_wc rrset =
        Mpic.does_value_list_permit_issuance (Mpic.issueTagValues rrset) caa_domains by
      unfold Mpic.is_valid_for_issuance
      rcases hcond with hw | hwild
      · simp [h, hw, hlen]
      · simp [h, hwild, hlen]]
    exact Mpic.permit_issuance_iff _ _
  · intro hcond hissue
    unfold Mpic.is_valid_for_issuance
    rcases hcond with hw | hwild
    · simp [h, hw, hissue]
    · simp [h, hwild, hissue]

/-- Witness for C2: a matching `issuewild` value permits a wildcard request,
and an RRset with neither `issue` nor `issuewild` records (no critical
unknown flag) permits issuance. -/
theorem C2_witness :
    (Mpic.is_valid_for_issuance ["ca1.com"] true
        [Mpic.CaaRecord.mk 0 "issuewild" "ca1.com"] = true ↔
      ∃ v ∈ Mpic.issueWildTagValues [Mpic.CaaRecord.mk 0 "issuewild" "ca1.com"],
        Mpic.containsChar v ';' = false ∧ Mpic.pyStrip v ∈ ["ca1.com"]) ∧
    Mpic.is_valid_for_issuance ["ca1.com"] false [Mpic.CaaRecord.mk 0 "tbs" "x"] = true :=
  ⟨(C2_issuance_decision ["ca1.com"] true [Mpic.CaaRecord.mk 0 "issuewild" "ca1.com"]
      (by decide)).1 rfl (by decide),
   (C2_issuance_decision ["ca1.com"] false [Mpic.CaaRecord.mk 0 "tbs" "x"]
      (by decide)).2.2 (Or.inl rfl) (by decide)⟩

namespace Mpic

/-! ## `MpicCaaChecker.find_caa_record_and_domain`

The Python loop starts at the request target and, while the current domain
is not the DNS root, resolves CAA.  A found RRset breaks the loop with the
current domain; `NoAnswer` moves to `domain.parent()` (the leftmost label is
dropped); any other resolver exception propagates out (there is no handler
for it).  Exhaustion returns `(None, root)`.  The loop is structural
recursion on the label list. -/

def find_caa_record_and_domain (resolve : List String → DnsLookupResult) :
    List String → Except String (Option RRset × List String)
  | [] => .ok (none, [])
  | label :: rest =>
    match resolve (label :: rest) with
    | .found rrset => .ok (some rrset, label :: rest)
    | .noAnswer => find_caa_record_and_domain resolve rest
    | .failure e => .error e

/-- The domains the loop passes to `dns.resolver.resolve`, in order. -/
def find_caa_query_trace (resolve : List String → DnsLookupResult) :
    List String → List (List String)
  | [] => []
  | label :: rest =>
    match resolve (label :: rest) with
    | .found _ => [label :: rest]
    | .noAnswer => (label :: rest) :: find_caa_query_trace resolve rest
    | .failure _ => [label :: rest]

theorem find_caa_query_trace_suffix (resolve : List String → DnsLookupResult) :
    ∀ target, ∀ d ∈ find_caa_query_trace resolve target, d ≠ [] ∧ d.IsSuffix target := by
  intro target
  induction target with
  | nil => intro d hd; simp [find_caa_query_trace] at hd
  | cons label rest ih =>
    intro d hd
    unfold find_caa_query_trace at hd
    cases hres : resolve (label :: rest) <;> rw [hres] at hd
    · simp at hd
      subst hd
      exact ⟨by simp, List.suffix_rfl⟩
    · rcases List.mem_cons.mp hd with h | h
      · subst h
        exact ⟨by simp, List.suffix_rfl⟩
      · obtain ⟨hne, hsuf⟩ := ih d h
        exact ⟨hne, hsuf.trans (List.suffix_cons label rest)⟩
    · simp at hd
      subst hd
      exact ⟨by simp, List.suffix_rfl⟩

theorem find_caa_query_trace_nodup (resolve : List String → DnsLookupResult) :
    ∀ target, (find_caa_query_trace resolve target).Nodup := by
  intro target
  induction target with
  | nil => simp [find_caa_query_trace]
  | cons label rest ih =>
    unfold find_caa_query_trace
    cases resolve (label :: rest)
    · simp
    · refine List.nodup_cons.mpr ⟨?_, ih⟩
      intro hmem
      have hsuf := (find_caa_query_trace_suffix resolve rest _ hmem).2
      have hlen := List.IsSuffix.length_le hsuf
      simp at hlen
    · simp

end Mpic

/-- **C9.** The CAA tree climb terminates and is orderly: the queried
domains are pairwise distinct (each ancestor queried at most once), every
queried domain is a nonempty suffix of the target (the leftmost label is
stripped on each `NoAnswer`), the DNS root itself is never queried, and a
target equal to the root produces no lookup and no RRset. -/
theorem C9_tree_climb (resolve : List String → Mpic.DnsLookupResult)
    (target : List String) :
    (Mpic.find_caa_query_trace resolve target).Nodup ∧
    (∀ d ∈ Mpic.find_caa_query_trace resolve target, d ≠ [] ∧ d.IsSuffix target) ∧
    Mpic.find_caa_record_and_domain resolve [] = .ok (none, []) ∧
    Mpic.find_caa_query_trace resolve [] = [] :=
  ⟨Mpic.find_caa_query_trace_nodup resolve target,
   Mpic.find_caa_query_trace_suffix resolve target,
   rfl, rfl⟩

/-- Witness for C9: the trace for a two-label target under all-`NoAnswer`
resolution, with the membership implication discharged at `["com"]`. -/
theorem C9_witness :
    (Mpic.find_caa_query_trace (fun _ => Mpic.DnsLookupResult.noAnswer)
        ["example", "com"]).Nodup ∧
    (["com"] ≠ [] ∧ List.IsSuffix ["com"] ["example", "com"]) := by
  refine ⟨(C9_tree_climb (fun _ => Mpic.DnsLookupResult.noAnswer) ["example", "com"]).1, ?_⟩
  refine (C9_tree_climb (fun _ => Mpic.DnsLookupResult.noAnswer) ["example", "com"]).2.1 ["com"] ?_
  simp [Mpic.find_caa_query_trace]

namespace Mpic

/-! ## `MpicCaaChecker.check_caa`

Request/response shapes as used by the checker: `caa_check_parameters` may
carry an override `caa_domains` list and a `certificate_type`; the response
details hold `present` (the spec's `caa_record_present`), `found_at` and
`response` (the textual RRset).  `check_caa` returns `statusCode` 200 with
the response; a resolver exception other than `NoAnswer` propagates
(`Except.error`), since the checker installs no handler for it. -/

inductive CertificateType where
  | tls_server
  | tls_server_wildcard
deriving Repr, DecidableEq

structure CaaCheckParameters where
  certificate_type : Option CertificateType := none
  caa_domains : Option (List String) := none
deriving Repr, DecidableEq

structure CaaCheckRequest where
  domain_or_ip_target : List String
  caa_check_parameters : Option CaaCheckParameters := none
deriving Repr, DecidableEq

structure CaaCheckResponseDetails where
  present : Bool
  found_at : Option String := none
  response : Option String := none
deriving Repr, DecidableEq

structure CaaCheckResponse where
  perspective : String
  check_passed : Bool
  details : CaaCheckResponseDetails
  timestamp_ns : Nat
deriving Repr, DecidableEq

def effectiveCaaDomains (default_caa_domain_list : List String)
    (caa_request : CaaCheckRequest) : List String :=
  match caa_request.caa_check_parameters with
  | some params =>
    match params.caa_domains with
    | some ds => ds
    | none => default_caa_domain_list
  | none => default_caa_domain_list

def effectiveIsWcDomain (caa_request : CaaCheckRequest) : Bool :=
  match caa_request.caa_check_parameters with
  | some params => params.certificate_type == some CertificateType.tls_server_wildcard
  | none => false

def check_caa (default_caa_domain_list : List String) (aws_region : String)
    (resolve : List String → DnsLookupResult) (timestamp_ns : Nat)
    (caa_request : CaaCheckRequest) : Except String (Nat × CaaCheckResponse) :=
  let caa_domains := effectiveCaaDomains default_caa_domain_list caa_request
  let is_wc_domain := effectiveIsWcDomain caa_request
  match find_caa_record_and_domain resolve caa_request.domain_or_ip_target with
  | .error e => .error e
  | .ok (none, _) =>
    .ok (200, { perspective := aws_region, check_passed := true,
                details := { present := false }, timestamp_ns := timestamp_ns })
  | .ok (some rrset, domain) =>
    .ok (200, { perspective := aws_region,
                check_passed := is_valid_for_issuance caa_domains is_wc_domain rrset.records,
                details := { present := true,
                             found_at := some (domainToText domain),
                             response := some rrset.text },
                timestamp_ns := timestamp_ns })

/-- If every nonempty suffix of the target answers `NoAnswer`, the climb
exhausts the tree and reports no RRset at the root. -/
theorem find_caa_all_noAnswer (resolve : List String → DnsLookupResult) :
    ∀ target, (∀ d, d ≠ [] → d.IsSuffix target → resolve d = .noAnswer) →
      find_caa_record_and_domain resolve target = .ok (none, []) := by
  intro target
  induction target with
  | nil => intro _; rfl
  | cons label rest ih =>
    intro h
    unfold find_caa_record_and_domain
    rw [h (label :: rest) (by simp) List.suffix_rfl]
    exact ih (fun d hne hsuf => h d hne (hsuf.trans (List.suffix_cons label rest)))

end Mpic

/-- **C3.** If the target and all of its ancestors short of the DNS root
yield no CAA RRset, `check_caa` returns `check_passed = true` with
`caa_record_present = false` (the `present` details field); and whenever the
climb finds an RRset at an ancestor `d`, the response's `found_at` is that
ancestor's textual domain. -/
theorem C3_check_caa_round_trip (default_caa_domain_list : List String)
    (aws_region : String) (resolve : List String → Mpic.DnsLookupResult)
    (timestamp_ns : Nat) (caa_request : Mpic.CaaCheckRequest) :
    ((∀ d, d ≠ [] → d.IsSuffix caa_request.domain_or_ip_target →
        resolve d = .noAnswer) →
      ∃ resp, Mpic.check_caa default_caa_domain_list aws_region resolve timestamp_ns
          caa_request = .ok (200, resp) ∧
        resp.check_passed = true ∧ resp.details.present = false) ∧
    (∀ rrset d, Mpic.find_caa_record_and_domain resolve
        caa_request.domain_or_ip_target = .ok (some rrset, d) →
      ∃ resp, Mpic.check_caa default_caa_domain_list aws_region resolve timestamp_ns
          caa_request = .ok (200, resp) ∧
        resp.details.found_at = some (Mpic.domainToText d)) := by
  constructor
  · intro h
    have hfind := Mpic.find_caa_all_noAnswer resolve caa_request.domain_or_ip_target h
    have hcaa : Mpic.check_caa default_caa_domain_list aws_region resolve timestamp_ns
        caa_request = .ok (200,
          { perspective := aws_region, check_passed := true,
            details := { present := false }, timestamp_ns := timestamp_ns }) := by
      unfold Mpic.check_caa
      rw [hfind]
    exact ⟨_, hcaa, rfl, rfl⟩
  · intro rrset d hfind
    have hcaa : Mpic.check_caa default_caa_domain_list aws_region resolve timestamp_ns
        caa_request = .ok (200,
          { perspective := aws_region,
            check_passed := Mpic.is_valid_for_issuance
              (Mpic.effectiveCaaDomains default_caa_domain_list caa_request)
              (Mpic.effectiveIsWcDomain caa_request) rrset.records,
            details := { present := true,
                         found_at := some (Mpic.domainToText d),
                         response := some rrset.text },
            timestamp_ns := timestamp_ns }) := by
      unfold Mpic.check_caa
      rw [hfind]
    exact ⟨_, hcaa, rfl⟩

/-- Witness for C3: an all-`NoAnswer` resolver yields the no-record success
response, and a resolver answering at the target itself reports that domain
in `found_at`. -/
theorem C3_witness :
    (∃ resp, Mpic.check_caa ["ca1.com"] "us-east-1"
        (fun _ => Mpic.DnsLookupResult.noAnswer) 0
        (Mpic.CaaCheckRequest.mk ["example", "com"] none) = .ok (200, resp) ∧
      resp.check_passed = true ∧ resp.details.present = false) ∧
    (∃ resp, Mpic.check_caa ["ca1.com"] "us-east-1"
        (fun _ => Mpic.DnsLookupResult.found (Mpic.RRset.mk [] "caa text")) 0
        (Mpic.CaaCheckRequest.mk ["example", "com"] none) = .ok (200, resp) ∧
      resp.details.found_at = some (Mpic.domainToText ["example", "com"])) :=
  ⟨(C3_check_caa_round_trip ["ca1.com"] "us-east-1"
      (fun _ => Mpic.DnsLookupResult.noAnswer) 0
      (Mpic.CaaCheckRequest.mk ["example", "com"] none)).1
        (fun _ _ _ => rfl),
   (C3_check_caa_round_trip ["ca1.com"] "us-east-1"
      (fun _ => Mpic.DnsLookupResult.found (Mpic.RRset.mk [] "caa text")) 0
      (Mpic.CaaCheckRequest.mk ["example", "com"] none)).2
        (Mpic.RRset.mk [] "caa text") ["example", "com"] rfl⟩

/-- **C4, counterexample.** `find_caa_record_and_domain` handles only
`dns.resolver.NoAnswer`; with a resolver that fails with a timeout at the
target, `check_caa` does not return a `check_passed = false` response — the
exception propagates out of the checker (`Except.error`). -/
theorem C4_counterexample :
    Mpic.check_caa ["ca1.com"] "us-east-1"
      (fun _ => Mpic.DnsLookupResult.failure "The DNS operation timed out.") 0
      (Mpic.CaaCheckRequest.mk ["example", "com"] none) =
      .error "The DNS operation timed out." := rfl

/-- **C4, amended.** A DNS lookup failure other than `NoAnswer` during the
tree climb propagates out of `check_caa` as the raised exception; no check
response (in particular no `check_passed = false` response) is produced. -/
theorem C4_dns_error_propagates (default_caa_domain_list : List String)
    (aws_region : String) (resolve : List String → Mpic.DnsLookupResult)
    (timestamp_ns : Nat) (caa_request : Mpic.CaaCheckRequest) (e : String)
    (h : Mpic.find_caa_record_and_domain resolve caa_request.domain_or_ip_target =
      .error e) :
    Mpic.check_caa default_caa_domain_list aws_region resolve timestamp_ns
      caa_request = .error e := by
  unfold Mpic.check_caa
  rw [h]

/-- Witness for the amended C4: a resolver failing with SERVFAIL at the
target makes `check_caa` propagate that error. -/
theorem C4_witness :
    Mpic.check_caa ["ca1.com"] "us-east-1"
      (fun _ => Mpic.DnsLookupResult.failure "SERVFAIL") 0
      (Mpic.CaaCheckRequest.mk ["a", "example", "com"] none) = .error "SERVFAIL" :=
  C4_dns_error_propagates ["ca1.com"] "us-east-1"
    (fun _ => Mpic.DnsLookupResult.failure "SERVFAIL") 0
    (Mpic.CaaCheckRequest.mk ["a", "example", "com"] none) "SERVFAIL" rfl

namespace Mpic

/-! ## `mpic_orchestration_parameters.py`

`BaseMpicOrchestrationParameters` declares `perspective_count` and
`quorum_count` with no default, hence pydantic treats them as required;
`MpicRequestOrchestrationParameters` additionally declares a required
`domain_or_ip_target` and optional `max_attempts` and `perspectives`.
`model_validate` / construction reports the missing required field keys as
a `ValidationError`. -/

structure BaseMpicOrchestrationParameters where
  perspective_count : Int
  quorum_count : Int
deriving Repr, DecidableEq

structure MpicRequestOrchestrationParameters extends BaseMpicOrchestrationParameters where
  domain_or_ip_target : String
  max_attempts : Option Int := none
  perspectives : Option (List String) := none
deriving Repr, DecidableEq

def validateMpicRequestOrchestrationParameters
    (perspective_count quorum_count : Option Int)
    (domain_or_ip_target : Option String)
    (max_attempts : Option Int) (perspectives : Option (List String)) :
    Except (List String) MpicRequestOrchestrationParameters :=
  match perspective_count, quorum_count, domain_or_ip_target with
  | some pc, some qc, some target =>
    .ok { perspective_count := pc, quorum_count := qc,
          domain_or_ip_target := target,
          max_attempts := max_attempts, perspectives := perspectives }
  | pc, qc, target =>
    .error ((if pc.isNone then ["perspective_count"] else []) ++
            (if qc.isNone then ["quorum_count"] else []) ++
            (if target.isNone then ["domain_or_ip_target"] else []))

/-! ## Coordinator quorum floor and attempt loop (modelled from the spec)

The `MpicCoordinator` implementation is not under `src/`; only its unit
tests are.  The following definitions are modelled from the spec. -/

/-- Modelled from the spec: the quorum floor used by
`MpicCoordinator.determine_required_quorum_count` when the request carries
no `quorum_count` (the coordinator source is missing from `src/`).  The
spec fixes the table `{4 → 3, 5 → 4, 6 → 4, 7 → 5, 8 → 5}`, agreeing with
the unit-test table `(4,3), (5,4), (6,4)`; other perspective counts
require an explicit `quorum_count`. -/
def quorum_floor : Nat → Option Nat
  | 4 => some 3
  | 5 => some 4
  | 6 => some 4
  | 7 => some 5
  | 8 => some 5
  | _ => none

/-- Modelled from the spec: `MpicCoordinator.determine_required_quorum_count`
(missing from `src/`): a request-supplied `quorum_count` is used verbatim,
else the quorum floor of the perspective count. -/
def determine_required_quorum_count (requested_quorum_count : Option Nat)
    (perspective_count : Nat) : Option Nat :=
  match requested_quorum_count with
  | some q => some q
  | none => quorum_floor perspective_count

/-- Modelled from the spec: the coordinator's effective attempt cap
`max_attempts := clamp(request.max_attempts ?? 1, 1, global_max_attempts ?? ∞)`
(the coordinator source is missing from `src/`). -/
def effective_max_attempts (request_max_attempts : Option Nat)
    (global_max_attempts : Option Nat) : Nat :=
  let m := max (request_max_attempts.getD 1) 1
  match global_max_attempts with
  | none => m
  | some g => min m g

/-- Modelled from the spec: the coordinator's attempt loop (missing from
`src/`): for attempt 1, 2, ... up to the cap, dispatch a cohort and
evaluate its quorum; break on the first success; the reported
`attempt_count` is the last attempt number. -/
def attempt_count (attempt_succeeds : Nat → Bool) (max_attempts : Nat) : Nat :=
  match (List.range' 1 max_attempts).find? attempt_succeeds with
  | some a => a
  | none => max_attempts

theorem attempt_count_bounds (attempt_succeeds : Nat → Bool) (n : Nat)
    (hn : 1 ≤ n) :
    1 ≤ attempt_count attempt_succeeds n ∧ attempt_count attempt_succeeds n ≤ n := by
  cases hfind : (List.range' 1 n).find? attempt_succeeds with
  | none =>
    have heq : attempt_count attempt_succeeds n = n := by
      unfold attempt_count
      rw [hfind]
    rw [heq]
    exact ⟨hn, le_refl n⟩
  | some a =>
    have heq : attempt_count attempt_succeeds n = a := by
      unfold attempt_count
      rw [hfind]
    have hmem : a ∈ List.range' 1 n := List.mem_of_find?_eq_some hfind
    rw [List.mem_range'] at hmem
    obtain ⟨i, hi, ha⟩ := hmem
    rw [heq]
    omega

end Mpic

/-- **C7, code behavior.** `MpicRequestOrchestrationParameters` requires
`perspective_count`, `quorum_count` (inherited) and `domain_or_ip_target`:
construction with no fields fails with those three missing keys, and even
supplying `perspective_count`, `quorum_count` and `max_attempts` (as the
repository's own test does) still fails on `domain_or_ip_target`. -/
theorem C7_required_fields_reject_empty_construction :
    Mpic.validateMpicRequestOrchestrationParameters none none none none none =
      .error ["perspective_count", "quorum_count", "domain_or_ip_target"] ∧
    Mpic.validateMpicRequestOrchestrationParameters (some 2) (some 2) none (some 2) none =
      .error ["domain_or_ip_target"] := ⟨rfl, rfl⟩

/-- **C6, counterexample.** At perspective count 5 the code's quorum floor
is 4, but `⌈5 · 0.6⌉ = 3`, so 4 is not the smallest `q` with
`q ≥ ⌈n · 0.6⌉` (that would be 3): the claim's characterization of the
table fails at `n = 5`. -/
theorem C6_counterexample :
    Mpic.determine_required_quorum_count none 5 = some 4 ∧
    Int.ceil ((5 : ℚ) * (6 / 10)) = 3 := by
  refine ⟨rfl, ?_⟩
  norm_num

/-- **C6, amended.** With no requested `quorum_count`, the effective quorum
for perspective counts 4–8 follows the table `{4→3, 5→4, 6→4, 7→5, 8→5}`,
i.e. it is the smallest `q` with `q > n · 0.6` (equivalently `5q > 3n`);
a requested `quorum_count` is returned verbatim regardless of the
perspective count. -/
theorem C6_quorum_count (n : Nat) (h4 : 4 ≤ n) (h8 : n ≤ 8) :
    (∀ q pc, Mpic.determine_required_quorum_count (some q) pc = some q) ∧
    ∃ q, Mpic.determine_required_quorum_count none n = some q ∧
      3 * n < 5 * q ∧ ∀ q', 3 * n < 5 * q' → q ≤ q' := by
  refine ⟨fun q pc => rfl, ?_⟩
  interval_cases n
  · exact ⟨3, rfl, by norm_num, fun q' h => by omega⟩
  · exact ⟨4, rfl, by norm_num, fun q' h => by omega⟩
  · exact ⟨4, rfl, by norm_num, fun q' h => by omega⟩
  · exact ⟨5, rfl, by norm_num, fun q' h => by omega⟩
  · exact ⟨5, rfl, by norm_num, fun q' h => by omega⟩

/-- Witness for the amended C6, at perspective count 5. -/
theorem C6_witness :
    (∀ q pc, Mpic.determine_required_quorum_count (some q) pc = some q) ∧
    ∃ q, Mpic.determine_required_quorum_count none 5 = some q ∧
      3 * 5 < 5 * q ∧ ∀ q', 3 * 5 < 5 * q' → q ≤ q' :=
  C6_quorum_count 5 (by norm_num) (by norm_num)

/-- **C8.** For a validated request with `max_attempts = r ≥ 1` and a
global cap `g ≥ 1`, the reported attempt count lies in `[1, min r g]`;
with no global cap the effective cap is the request's `r` alone; and in the
concrete scenario `global_max_attempts = 2`, `request.max_attempts = 4`,
all attempts failing, exactly 2 attempts are reported. -/
theorem C8_attempt_count_bounds (attempt_succeeds : Nat → Bool) (r g : Nat)
    (hr : 1 ≤ r) (hg : 1 ≤ g) :
    (1 ≤ Mpic.attempt_count attempt_succeeds
        (Mpic.effective_max_attempts (some r) (some g)) ∧
      Mpic.attempt_count attempt_succeeds
        (Mpic.effective_max_attempts (some r) (some g)) ≤ min r g) ∧
    Mpic.effective_max_attempts (some r) none = r ∧
    Mpic.attempt_count (fun _ => false)
      (Mpic.effective_max_attempts (some 4) (some 2)) = 2 := by
  have heff : Mpic.effective_max_attempts (some r) (some g) = min r g := by
    unfold Mpic.effective_max_attempts
    simp [Nat.max_eq_left hr]
  have hmin : 1 ≤ min r g := le_min hr hg
  refine ⟨?_, ?_, ?_⟩
  · rw [heff]
    exact Mpic.attempt_count_bounds attempt_succeeds (min r g) hmin
  · unfold Mpic.effective_max_attempts
    simp [Nat.max_eq_left hr]
  · decide

/-- Witness for C8 at `r = 4`, `g = 2` with all attempts failing. -/
theorem C8_witness :
    (1 ≤ Mpic.attempt_count (fun _ => false)
        (Mpic.effective_max_attempts (some 4) (some 2)) ∧
      Mpic.attempt_count (fun _ => false)
        (Mpic.effective_max_attempts (some 4) (some 2)) ≤ min 4 2) ∧
    Mpic.effective_max_attempts (some 4) none = 4 ∧
    Mpic.attempt_count (fun _ => false)
      (Mpic.effective_max_attempts (some 4) (some 2)) = 2 :=
  C8_attempt_count_bounds (fun _ => false) 4 2 (by norm_num) (by norm_num)

namespace Mpic

/-! ## `mpic_dcv_checker_lambda_function.py`

`MpicDcvCheckerLambdaHandler.process_invocation` validates the request,
runs the DCV checker (`MpicDcvChecker.check_dcv`, an external collaborator
passed in as a function), and maps the response's error list to an HTTP
status: 200 with no errors (`None` or empty), 404 when the first error's
`error_type` is `'404'`, 500 for any other non-empty error list.  The body
is always `dcv_response.model_dump_json()` (serialization passed in as a
function). -/

structure DcvCheckErrorEntry where
  error_type : String
  error_message : String
deriving Repr, DecidableEq

structure DcvCheckResponse where
  perspective : String
  check_passed : Bool
  errors : Option (List DcvCheckErrorEntry) := none
deriving Repr, DecidableEq

structure DcvLambdaResult where
  statusCode : Nat
  contentType : String
  body : String
deriving Repr, DecidableEq

def process_invocation (check_dcv : String → DcvCheckResponse)
    (model_dump_json : DcvCheckResponse → String)
    (dcv_request : String) : DcvLambdaResult :=
  let dcv_response := check_dcv dcv_request
  let status_code : Nat :=
    match dcv_response.errors with
    | none => 200
    | some [] => 200
    | some (e :: _) => if e.error_type == "404" then 404 else 500
  { statusCode := status_code,
    contentType := "application/json",
    body := model_dump_json dcv_response }

end Mpic

/-- **C10.** The DCV checker lambda returns status 200 when the check
response carries no errors (`None` or empty), 404 when the first error's
`error_type` is `'404'`, and 500 for any other non-empty error list; the
serialized check response is returned as the body unchanged in all cases. -/
theorem C10_dcv_lambda_status (check_dcv : String → Mpic.DcvCheckResponse)
    (model_dump_json : Mpic.DcvCheckResponse → String) (dcv_request : String) :
    (((check_dcv dcv_request).errors = none ∨
        (check_dcv dcv_request).errors = some []) →
      (Mpic.process_invocation check_dcv model_dump_json dcv_request).statusCode = 200) ∧
    (∀ e es, (check_dcv dcv_request).errors = some (e :: es) →
      (e.error_type = "404" →
        (Mpic.process_invocation check_dcv model_dump_json dcv_request).statusCode = 404) ∧
      (e.error_type ≠ "404" →
        (Mpic.process_invocation check_dcv model_dump_json dcv_request).statusCode = 500)) ∧
    (Mpic.process_invocation check_dcv model_dump_json dcv_request).body =
      model_dump_json (check_dcv dcv_request) := by
  refine ⟨?_, ?_, rfl⟩
  · intro h
    rcases h with h | h <;> simp [Mpic.process_invocation, h]
  · intro e es h
    constructor
    · intro h404
      simp [Mpic.process_invocation, h, h404]
    · intro hother
      simp [Mpic.process_invocation, h, hother]

/-- Witness for C10: concrete checker outcomes exercising the 200, 404 and
500 paths. -/
theorem C10_witness :
    (Mpic.process_invocation (fun _ => Mpic.DcvCheckResponse.mk "p" true none)
      (fun _ => "ser") "req").statusCode = 200 ∧
    (Mpic.process_invocation
      (fun _ => Mpic.DcvCheckResponse.mk "p" false
        (some [Mpic.DcvCheckErrorEntry.mk "404" "not found"]))
      (fun _ => "ser") "req").statusCode = 404 ∧
    (Mpic.process_invocation
      (fun _ => Mpic.DcvCheckResponse.mk "p" false
        (some [Mpic.DcvCheckErrorEntry.mk "dcv_failure" "boom"]))
      (fun _ => "ser") "req").statusCode = 500 :=
  ⟨(C10_dcv_lambda_status (fun _ => Mpic.DcvCheckResponse.mk "p" true none)
      (fun _ => "ser") "req").1 (Or.inl rfl),
   ((C10_dcv_lambda_status
      (fun _ => Mpic.DcvCheckResponse.mk "p" false
        (some [Mpic.DcvCheckErrorEntry.mk "404" "not found"]))
      (fun _ => "ser") "req").2.1 (Mpic.DcvCheckErrorEntry.mk "404" "not found") []
        rfl).1 rfl,
   ((C10_dcv_lambda_status
      (fun _ => Mpic.DcvCheckResponse.mk "p" false
        (some [Mpic.DcvCheckErrorEntry.mk "dcv_failure" "boom"]))
      (fun _ => "ser") "req").2.1 (Mpic.DcvCheckErrorEntry.mk "dcv_failure" "boom") []
        rfl).2 (by decide)⟩

/-- Witness for C5: the single value `"ca1.com"` (no `;`) matches the CAA
domain list `["ca1.com"]`. -/
theorem C5_witness :
    Mpic.does_value_list_permit_issuance ["ca1.com"] ["ca1.com"] = true :=
  (C5_value_list_permit_issuance_iff ["ca1.com"] ["ca1.com"]).mpr
    ⟨"ca1.com", by decide, by decide, by decide⟩

/-- A value carrying a `;` extension on its own never permits issuance. -/
theorem C5_semicolon_never_permits :
    Mpic.does_value_list_permit_issuance ["ca1.com;policy=ev"] ["ca1.com;policy=ev"] = false := by
  decide
